import Mathlib

/-!
Verification of the rate-limiting / retry subsystem
(`utils/rate_limiter.py`, class `RateLimiter`).

The Python code is shallowly embedded: floats are modelled as rationals
(`ℚ`), Python `int` as `ℤ`/`ℕ`, `Optional` as `Option`, and the mutable
instance state (`last_request_time`, `request_count`) is threaded
explicitly.  Wall-clock time is modelled by a virtual clock carried
through the attempt loop: `time.time()` reads the clock and
`time.sleep(d)` advances it by exactly `d`; additional elapsed time
between attempts (the operation's own duration, scheduling, ...) is an
environment-supplied drift.  `random.random() * 2 - 1` is modelled as an
environment-supplied draw `u`.
-/

namespace RateLimiterModel

/-- The two characters accepted by the regex character class `["\']`:
the double quote and the apostrophe (code point 39). -/
def isQuote (c : Char) : Bool := decide (c = '"' ∨ c = Char.ofNat 39)

/-- The ASCII portion of the regex class `\s`: space, tab, newline,
vertical tab, form feed, carriage return.  (Non-ASCII Unicode
whitespace, which Python's `\s` also matches, is not modelled; no
property here depends on it.) -/
def isPySpace (c : Char) : Bool :=
  decide (c = ' ' ∨ c = Char.ofNat 9 ∨ c = Char.ofNat 10 ∨
    c = Char.ofNat 11 ∨ c = Char.ofNat 12 ∨ c = Char.ofNat 13)

/-- Match a literal character sequence at the head of `s`; on success
return the remainder of `s`. -/
def dropLit : List Char → List Char → Option (List Char)
  | [], s => some s
  | _ :: _, [] => none
  | c :: cs, d :: ds => if c = d then dropLit cs ds else none

/-- The literal part of the extraction pattern. -/
def resetHeader : List Char := "X-RateLimit-Reset".toList

/-- Match the pattern `X-RateLimit-Reset["\']:\s*["\']([^"\']+)["\']`
anchored at the start of `s`, returning the capture group.  The pattern
is deterministic: `\s*` is followed by a quote (not whitespace), and the
greedy capture `[^"\']+` must be followed by a quote, so no backtracking
alternative exists. -/
def matchResetAt (s : List Char) : Option (List Char) :=
  match dropLit resetHeader s with
  | none => none
  | some s1 =>
    match s1 with
    | [] => none
    | q1 :: s2 =>
      if isQuote q1 then
        match s2 with
        | [] => none
        | c :: s3 =>
          if c = ':' then
            match s3.dropWhile isPySpace with
            | [] => none
            | q2 :: s5 =>
              if isQuote q2 then
                match s5.takeWhile (fun d => !(isQuote d)),
                      s5.dropWhile (fun d => !(isQuote d)) with
                | [], _ => none
                | _, [] => none
                | cap, _ :: _ => some cap
              else none
          else none
      else none

/-- `re.search`: try the anchored match at every position, left to
right, returning the first capture. -/
def searchReset : List Char → Option (List Char)
  | [] => none
  | c :: cs =>
    match matchResetAt (c :: cs) with
    | some r => some r
    | none => searchReset cs

/-- Numeric value of a decimal digit string. -/
def digitsVal (ds : List Char) : ℕ :=
  ds.foldl (fun a c => 10 * a + (c.toNat - 48)) 0

/-- Parse a nonempty all-digit string. -/
def natDigits (ds : List Char) : Option ℕ :=
  if ds = [] then none
  else if ds.all Char.isDigit then some (digitsVal ds) else none

/-- Strip leading and trailing whitespace. -/
def trimWs (s : List Char) : List Char :=
  ((s.dropWhile isPySpace).reverse.dropWhile isPySpace).reverse

/-- Python `int(str)`: surrounding whitespace stripped, optional sign,
then decimal digits; anything else raises `ValueError` (modelled as
`none`).  (Python's digit-group underscores and non-ASCII decimal
digits are not modelled; no property here depends on them.) -/
def pyInt (s : List Char) : Option ℤ :=
  match trimWs s with
  | [] => none
  | c :: rest =>
    if c = '+' then (natDigits rest).map (fun n => (n : ℤ))
    else if c = '-' then (natDigits rest).map (fun n => -(n : ℤ))
    else (natDigits (c :: rest)).map (fun n => (n : ℤ))

/-- `RateLimiter._extract_retry_after`.  `now_ms` models
`int(time.time() * 1000)`.  Returns the suggested delay in seconds when
the message carries a reset timestamp strictly in the future; `None`
otherwise (no regex match, parse failure, or stale timestamp). -/
def extract_retry_after (now_ms : ℤ) (error_message : String) : Option ℚ :=
  match searchReset error_message.toList with
  | none => none
  | some grp =>
    match pyInt grp with
    | none => none
    | some reset_timestamp =>
      if now_ms < reset_timestamp then
        some (((reset_timestamp - now_ms : ℤ) : ℚ) / 1000)
      else none

/-- The keyword list of `RateLimiter._is_rate_limit_error`. -/
def rate_limit_keywords : List String :=
  ["rate limit", "429", "too many requests", "quota exceeded"]

/-- `RateLimiter._is_rate_limit_error`, as a function of the rendered
error text `str(error)`: any keyword occurs as a substring
(`keyword in error_str`) of the lowercased message. -/
def is_rate_limit_error (error_message : String) : Bool :=
  rate_limit_keywords.any
    (fun k => decide (k.toList <:+: error_message.toLower.toList))

/-- The `RateLimiter` instance: policy fields plus mutable state. -/
structure RateLimiter where
  max_retries : ℤ
  base_delay : ℚ
  max_delay : ℚ
  last_request_time : ℚ
  request_count : ℕ
deriving DecidableEq

/-- The value of `delay` in `RateLimiter._calculate_delay` just before
jitter is added: the extracted retry-after when present and truthy
(Python `if retry_after:` — a `None` or a `0.0` falls through to the
exponential formula; the extractor never returns `0.0`, but the
truthiness test is modelled faithfully), else `base_delay * 2^attempt`. -/
def pre_jitter_delay (rl : RateLimiter) (attempt : ℕ) (error_message : String)
    (now_ms : ℤ) : ℚ :=
  match extract_retry_after now_ms error_message with
  | some retry_after =>
    if retry_after ≠ 0 then retry_after else rl.base_delay * 2 ^ attempt
  | none => rl.base_delay * 2 ^ attempt

/-- `RateLimiter._calculate_delay`.  `u ∈ [-1, 1)` models
`random.random() * 2 - 1`; jitter is `delay * 0.25 * u`, then the result
is capped at `max_delay` and floored at `0.1`. -/
def calculate_delay (rl : RateLimiter) (attempt : ℕ) (error_message : String)
    (now_ms : ℤ) (u : ℚ) : ℚ :=
  let delay := pre_jitter_delay rl attempt error_message now_ms
  let jitter := delay * (1 / 4) * u
  let delay1 := delay + jitter
  let delay2 := min delay1 rl.max_delay
  max delay2 (1 / 10)

/-- Result of one invocation of the wrapped operation: a return value
or a raised error. -/
inductive Outcome (α ε : Type) where
  | ok : α → Outcome α ε
  | err : ε → Outcome α ε
deriving DecidableEq

/-- How `call_with_retry` terminates: a returned result, an error
re-raised from inside the attempt loop (`raise e`), or the trailing
fallback `raise last_exception` after the loop. -/
inductive RunResult (α ε : Type) where
  | success : α → RunResult α ε
  | raised : ε → RunResult α ε
  | fallback : Option ε → RunResult α ε
deriving DecidableEq

/-- Environment of one `call_with_retry` execution: the wrapped
operation's outcome and rendered error text per attempt, the clock
drift observed before each attempt's `time.time()` pacing read (time
spent in the previous operation, scheduling, ...), and, per attempt,
the extraction clock `int(time.time() * 1000)` and the jitter draw
`random.random() * 2 - 1`. -/
structure Env (α ε : Type) where
  behavior : ℕ → Outcome α ε
  msg : ε → String
  preDrift : ℕ → ℚ
  nowMs : ℕ → ℤ
  u : ℕ → ℚ

/-- Observable trace of one attempt: the pacing `time.time()` read, the
computed `time_since_last`, the pacing sleep performed, and the
timestamp written to `last_request_time` (the attempt's start). -/
structure AttemptInfo where
  readTime : ℚ
  elapsed : ℚ
  sleepPacing : ℚ
  start : ℚ
deriving DecidableEq

/-- Output of a `call_with_retry` execution: the terminal result, the
final instance state, the final clock, the number of invocations of the
wrapped operation, and the per-attempt trace. -/
structure RunOut (α ε : Type) where
  res : RunResult α ε
  rl : RateLimiter
  clock : ℚ
  calls : ℕ
  log : List AttemptInfo
deriving DecidableEq

/-- State after the pacing prologue of one attempt (source lines:
`current_time = time.time()`, `time_since_last`, `min_interval = 0.2`,
the conditional `time.sleep(min_interval - time_since_last)`, then
`self.last_request_time = time.time()` and
`self.request_count += 1`). -/
structure PaceOut where
  rl : RateLimiter
  clock : ℚ
  info : AttemptInfo
deriving DecidableEq

/-- Pacing prologue of one attempt of `call_with_retry`. -/
def paceStep {α ε : Type} (env : Env α ε) (attempt : ℕ) (rl : RateLimiter)
    (clock : ℚ) : PaceOut :=
  let current_time := clock + env.preDrift attempt
  let time_since_last := current_time - rl.last_request_time
  let min_interval : ℚ := 1 / 5
  let sleepAmt := if time_since_last < min_interval
    then min_interval - time_since_last else 0
  let clock1 := current_time + sleepAmt
  let rl1 : RateLimiter :=
    { rl with last_request_time := clock1, request_count := rl.request_count + 1 }
  ⟨rl1, clock1, ⟨current_time, time_since_last, sleepAmt, clock1⟩⟩

/-- The body of `RateLimiter.call_with_retry`, one loop iteration per
fuel unit; `attempt` is the Python loop index.  `time.sleep(d)`
advances the virtual clock by exactly `d`. -/
def callLoop {α ε : Type} (env : Env α ε) : ℕ → ℕ → RateLimiter → ℚ → Option ε →
    RunOut α ε
  | 0, _, rl, clock, last_exception =>
    ⟨RunResult.fallback last_exception, rl, clock, 0, []⟩
  | n + 1, attempt, rl, clock, _ =>
    let p := paceStep env attempt rl clock
    match env.behavior attempt with
    | Outcome.ok v => ⟨RunResult.success v, p.rl, p.clock, 1, [p.info]⟩
    | Outcome.err e =>
      if is_rate_limit_error (env.msg e) = false then
        ⟨RunResult.raised e, p.rl, p.clock, 1, [p.info]⟩
      else if (attempt : ℤ) = p.rl.max_retries then
        ⟨RunResult.raised e, p.rl, p.clock, 1, [p.info]⟩
      else
        let delay := calculate_delay p.rl attempt (env.msg e) (env.nowMs attempt)
          (env.u attempt)
        let rest := callLoop env n (attempt + 1) p.rl (p.clock + delay) (some e)
        ⟨rest.res, rest.rl, rest.clock, rest.calls + 1, p.info :: rest.log⟩

/-- `RateLimiter.call_with_retry`: `for attempt in range(max_retries + 1)`
starting from instance state `rl` and virtual clock `clock`, with
`last_exception` initially `None`. -/
def call_with_retry {α ε : Type} (rl : RateLimiter) (clock : ℚ) (env : Env α ε) :
    RunOut α ε :=
  callLoop env (rl.max_retries + 1).toNat 0 rl clock none

/-! ### Helper lemmas -/

theorem dropLit_self_append : ∀ (l r : List Char), dropLit l (l ++ r) = some r := by
  intro l
  induction l with
  | nil => intro r; rfl
  | cons c cs ih => intro r; simp [dropLit, ih]

theorem takeWhile_append_all {p : Char → Bool} :
    ∀ (l r : List Char), (∀ c ∈ l, p c = true) →
      (l ++ r).takeWhile p = l ++ r.takeWhile p := by
  intro l
  induction l with
  | nil => simp
  | cons c cs ih =>
    intro r h
    simp only [List.cons_append, List.takeWhile_cons, h c (by simp)]
    rw [ih r (fun d hd => h d (by simp [hd]))]
    simp

theorem dropWhile_append_all {p : Char → Bool} :
    ∀ (l r : List Char), (∀ c ∈ l, p c = true) →
      (l ++ r).dropWhile p = r.dropWhile p := by
  intro l
  induction l with
  | nil => simp
  | cons c cs ih =>
    intro r h
    simp only [List.cons_append, List.dropWhile_cons, h c (by simp)]
    exact ih r (fun d hd => h d (by simp [hd]))

theorem dropWhile_all_false {p : Char → Bool} (l : List Char)
    (h : ∀ c ∈ l, p c = false) : l.dropWhile p = l := by
  cases l with
  | nil => rfl
  | cons c cs => simp [List.dropWhile_cons, h c (by simp)]

theorem digit_not_quote {c : Char} (h : c.isDigit = true) : isQuote c = false := by
  rw [isQuote, decide_eq_false_iff_not]
  rintro (rfl | rfl) <;> exact absurd h (by decide)

theorem digit_not_space {c : Char} (h : c.isDigit = true) : isPySpace c = false := by
  rw [isPySpace, decide_eq_false_iff_not]
  rintro (rfl | rfl | rfl | rfl | rfl | rfl) <;> exact absurd h (by decide)

theorem digit_ne_plus {c : Char} (h : c.isDigit = true) : c ≠ '+' := by
  rintro rfl; exact absurd h (by decide)

theorem digit_ne_minus {c : Char} (h : c.isDigit = true) : c ≠ '-' := by
  rintro rfl; exact absurd h (by decide)

theorem matchResetAt_hit (ds sfx : List Char) (hne : ds ≠ [])
    (hdig : ∀ c ∈ ds, c.isDigit = true) :
    matchResetAt (resetHeader ++ '"' :: ':' :: ' ' :: '"' :: (ds ++ '"' :: sfx)) =
      some ds := by
  have hnq : ∀ c ∈ ds, (!(isQuote c)) = true := by
    intro c hc
    rw [digit_not_quote (hdig c hc)]
    rfl
  obtain ⟨d, ds1, rfl⟩ := List.exists_cons_of_ne_nil hne
  rw [matchResetAt, dropLit_self_append]
  have h1 : isQuote '"' = true := by decide
  have h2 : isPySpace ' ' = true := by decide
  have h3 : isPySpace '"' = false := by decide
  have h4 : (!(isQuote '"')) = false := by decide
  simp only [h1, if_true, List.dropWhile_cons, h2, if_pos rfl, h3, Bool.false_eq_true,
    if_false]
  rw [takeWhile_append_all _ _ hnq, dropWhile_append_all _ _ hnq]
  simp only [List.takeWhile_cons, List.dropWhile_cons, h4, Bool.false_eq_true, if_false,
    List.append_nil]

theorem searchReset_of_matchResetAt {l r : List Char}
    (h : matchResetAt l = some r) : searchReset l = some r := by
  cases l with
  | nil =>
    have hnone : matchResetAt ([] : List Char) = none := by decide
    rw [hnone] at h
    exact absurd h (by simp)
  | cons c cs => rw [searchReset, h]

theorem trimWs_of_digits (ds : List Char) (hdig : ∀ c ∈ ds, c.isDigit = true) :
    trimWs ds = ds := by
  have h1 : ∀ c ∈ ds, isPySpace c = false := fun c hc => digit_not_space (hdig c hc)
  rw [trimWs, dropWhile_all_false ds h1,
    dropWhile_all_false _ (fun c hc => h1 c (List.mem_reverse.mp hc)),
    List.reverse_reverse]

theorem pyInt_digits (ds : List Char) (hne : ds ≠ [])
    (hdig : ∀ c ∈ ds, c.isDigit = true) :
    pyInt ds = some (digitsVal ds : ℤ) := by
  obtain ⟨d, ds1, rfl⟩ := List.exists_cons_of_ne_nil hne
  have hd : d.isDigit = true := hdig d (by simp)
  have hnat : natDigits (d :: ds1) = some (digitsVal (d :: ds1)) := by
    rw [natDigits, if_neg (by simp), if_pos (List.all_eq_true.mpr hdig)]
  rw [pyInt, trimWs_of_digits _ hdig]
  simp [if_neg (digit_ne_plus hd), if_neg (digit_ne_minus hd), hnat]

theorem paceStep_max_retries {α ε : Type} (env : Env α ε) (a : ℕ)
    (rl : RateLimiter) (c : ℚ) :
    (paceStep env a rl c).rl.max_retries = rl.max_retries := rfl

theorem paceStep_request_count {α ε : Type} (env : Env α ε) (a : ℕ)
    (rl : RateLimiter) (c : ℚ) :
    (paceStep env a rl c).rl.request_count = rl.request_count + 1 := rfl

theorem paceStep_last_eq_start {α ε : Type} (env : Env α ε) (a : ℕ)
    (rl : RateLimiter) (c : ℚ) :
    (paceStep env a rl c).rl.last_request_time = (paceStep env a rl c).info.start :=
  rfl

theorem paceStep_clock_eq_start {α ε : Type} (env : Env α ε) (a : ℕ)
    (rl : RateLimiter) (c : ℚ) :
    (paceStep env a rl c).clock = (paceStep env a rl c).info.start := rfl

theorem paceStep_sleep_form {α ε : Type} (env : Env α ε) (a : ℕ)
    (rl : RateLimiter) (c : ℚ) :
    (paceStep env a rl c).info.sleepPacing =
      (if (paceStep env a rl c).info.elapsed < 1 / 5
        then 1 / 5 - (paceStep env a rl c).info.elapsed else 0) := rfl

theorem paceStep_start_form {α ε : Type} (env : Env α ε) (a : ℕ)
    (rl : RateLimiter) (c : ℚ) :
    (paceStep env a rl c).info.start =
      (paceStep env a rl c).info.readTime + (paceStep env a rl c).info.sleepPacing :=
  rfl

/-- The pacing prologue guarantees the new attempt start is at least
`min_interval = 0.2` seconds after the previous recorded start. -/
theorem paceStep_spacing {α ε : Type} (env : Env α ε) (a : ℕ)
    (rl : RateLimiter) (c : ℚ) :
    rl.last_request_time + 1 / 5 ≤ (paceStep env a rl c).info.start := by
  unfold paceStep
  by_cases h : (c + env.preDrift a) - rl.last_request_time < 1 / 5
  · simp only [h, if_true]
    exact le_of_eq (by ring)
  · simp only [h, if_false]
    rw [not_lt] at h
    linarith

theorem extract_retry_after_hint (ds sfx : List Char) (now_ms : ℤ)
    (hne : ds ≠ []) (hdig : ∀ c ∈ ds, c.isDigit = true)
    (hfut : now_ms < (digitsVal ds : ℤ)) :
    extract_retry_after now_ms
      (String.mk ("X-RateLimit-Reset\": \"".toList ++ ds ++ '"' :: sfx)) =
      some ((((digitsVal ds : ℤ) - now_ms : ℤ) : ℚ) / 1000) := by
  have hlist : ("X-RateLimit-Reset\": \"".toList ++ ds ++ '"' :: sfx) =
      resetHeader ++ '"' :: ':' :: ' ' :: '"' :: (ds ++ '"' :: sfx) := by
    have hsplit : "X-RateLimit-Reset\": \"".toList =
        resetHeader ++ ('"' :: ':' :: ' ' :: '"' :: []) := by decide
    rw [hsplit]
    simp [List.append_assoc]
  rw [show String.mk ("X-RateLimit-Reset\": \"".toList ++ ds ++ '"' :: sfx) =
      String.mk (resetHeader ++ '"' :: ':' :: ' ' :: '"' :: (ds ++ '"' :: sfx)) from
    by rw [hlist]]
  unfold extract_retry_after
  simp only [String.toList]
  rw [searchReset_of_matchResetAt (matchResetAt_hit ds sfx hne hdig)]
  simp [pyInt_digits ds hne hdig, hfut]

/-- If every attempt in the window raises a rate-limit-classified error
and the fuel reaches exactly the last loop iteration, the loop makes
every attempt and re-raises the error of the last one. -/
theorem callLoop_all_rl {α ε : Type} (env : Env α ε) :
    ∀ (n : ℕ), ∀ (attempt : ℕ) (rl : RateLimiter) (clock : ℚ) (last : Option ε),
      ((attempt : ℤ) + (n : ℤ) = rl.max_retries + 1) →
      (∀ i, attempt ≤ i → i < attempt + n →
        ∃ e, env.behavior i = Outcome.err e ∧
          is_rate_limit_error (env.msg e) = true) →
      0 < n →
      (callLoop env n attempt rl clock last).calls = n ∧
      ∃ e, env.behavior (attempt + n - 1) = Outcome.err e ∧
        (callLoop env n attempt rl clock last).res = RunResult.raised e := by
  intro n
  induction n with
  | zero => intro attempt rl clock last _ _ h0; exact absurd h0 (lt_irrefl 0)
  | succ m ih =>
    intro attempt rl clock last hinv hfail _
    obtain ⟨e, hbe, hrl⟩ := hfail attempt (le_refl attempt) (by omega)
    have hc1 : ¬ (is_rate_limit_error (env.msg e) = false) := by simp [hrl]
    by_cases hm : m = 0
    · subst hm
      have hat : (attempt : ℤ) = (paceStep env attempt rl clock).rl.max_retries := by
        rw [paceStep_max_retries]
        push_cast at hinv
        omega
      refine ⟨?_, e, ?_, ?_⟩
      · simp [callLoop, hbe, if_neg hc1, if_pos hat]
      · simpa using hbe
      · simp [callLoop, hbe, if_neg hc1, if_pos hat]
    · have hat : ¬ ((attempt : ℤ) = (paceStep env attempt rl clock).rl.max_retries) := by
        rw [paceStep_max_retries]
        push_cast at hinv
        omega
      have hinv2 : ((attempt + 1 : ℕ) : ℤ) + (m : ℤ) =
          (paceStep env attempt rl clock).rl.max_retries + 1 := by
        rw [paceStep_max_retries]
        push_cast at hinv ⊢
        omega
      have hfail2 : ∀ i, attempt + 1 ≤ i → i < (attempt + 1) + m →
          ∃ e, env.behavior i = Outcome.err e ∧
            is_rate_limit_error (env.msg e) = true := by
        intro i h1 h2
        exact hfail i (by omega) (by omega)
      obtain ⟨ih1, e2, ih2, ih3⟩ :=
        ih (attempt + 1) (paceStep env attempt rl clock).rl
          ((paceStep env attempt rl clock).clock +
            calculate_delay (paceStep env attempt rl clock).rl attempt
              (env.msg e) (env.nowMs attempt) (env.u attempt))
          (some e) hinv2 hfail2 (by omega)
      refine ⟨?_, e2, ?_, ?_⟩
      · simp [callLoop, hbe, if_neg hc1, if_neg hat, ih1]
      · have hidx : attempt + (m + 1) - 1 = attempt + 1 + m - 1 := by omega
        rw [hidx]
        exact ih2
      · simp [callLoop, hbe, if_neg hc1, if_neg hat, ih3]

/-! ### Claims -/

/-- C2: with `max_retries = k ≥ 0`, if the wrapped operation raises a
rate-limit-classified error on every invocation, `call_with_retry`
invokes it exactly `k + 1` times and then re-raises the last error. -/
theorem claim2_attempt_bound {α ε : Type} (k : ℕ) (rl : RateLimiter) (clock : ℚ)
    (env : Env α ε) (hk : rl.max_retries = (k : ℤ))
    (hfail : ∀ i, i ≤ k →
      ∃ e, env.behavior i = Outcome.err e ∧
        is_rate_limit_error (env.msg e) = true) :
    (call_with_retry rl clock env).calls = k + 1 ∧
    ∃ e, env.behavior k = Outcome.err e ∧
      (call_with_retry rl clock env).res = RunResult.raised e := by
  unfold call_with_retry
  have hfuel : (rl.max_retries + 1).toNat = k + 1 := by omega
  rw [hfuel]
  have h := callLoop_all_rl env (k + 1) 0 rl clock none (by push_cast; omega)
    (fun i _ h2 => hfail i (by omega)) (by omega)
  simpa using h

/-- C1, as stated, is false: the extraction regex
`X-RateLimit-Reset["\']:\s*["\']([^"\']+)["\']` demands a quote or
apostrophe between the header name and the colon, so a message carrying
the plain-text hint `X-RateLimit-Reset: "2000"` (with timestamp 2000
strictly greater than the current time 1000) yields no extracted delay,
and the pre-jitter, pre-clamp delay is the exponential
`base_delay * 2^attempt = 5`, not `(2000 - 1000) / 1000 = 1`. -/
theorem claim1_counterexample :
    ("X-RateLimit-Reset: \"2000\"").toList <:+:
      ("X-RateLimit-Reset: \"2000\"").toList ∧
    (1000 : ℤ) < 2000 ∧
    extract_retry_after 1000 "X-RateLimit-Reset: \"2000\"" = none ∧
    pre_jitter_delay ⟨3, 5, 60, 0, 0⟩ 0 "X-RateLimit-Reset: \"2000\"" 1000 =
      5 * 2 ^ 0 ∧
    pre_jitter_delay ⟨3, 5, 60, 0, 0⟩ 0 "X-RateLimit-Reset: \"2000\"" 1000 ≠
      ((2000 - 1000 : ℤ) : ℚ) / 1000 := by
  with_unfolding_all decide

/-- C1 (amended): for every error message beginning with a
rate-limit-reset hint in the quoted form `X-RateLimit-Reset": "<T>"`
(a quote before the colon, as the extraction regex requires) where `T`
is an integer millisecond timestamp strictly greater than the current
time `now_ms`, the backoff computation uses `(T - now_ms) / 1000`
seconds as the pre-jitter, pre-clamp delay for that attempt, instead of
the exponential formula `base_delay * 2^attempt`. -/
theorem claim1_hint_precedence (rl : RateLimiter) (attempt : ℕ)
    (ds sfx : List Char) (now_ms : ℤ)
    (hne : ds ≠ []) (hdig : ∀ c ∈ ds, c.isDigit = true)
    (hfut : now_ms < (digitsVal ds : ℤ)) :
    pre_jitter_delay rl attempt
      (String.mk ("X-RateLimit-Reset\": \"".toList ++ ds ++ '"' :: sfx)) now_ms =
      (((digitsVal ds : ℤ) - now_ms : ℤ) : ℚ) / 1000 := by
  have hpos : (0 : ℚ) < (((digitsVal ds : ℤ) - now_ms : ℤ) : ℚ) / 1000 := by
    apply div_pos _ (by norm_num)
    have : (0 : ℤ) < (digitsVal ds : ℤ) - now_ms := by omega
    exact_mod_cast this
  unfold pre_jitter_delay
  rw [extract_retry_after_hint ds sfx now_ms hne hdig hfut]
  show (if (((digitsVal ds : ℤ) - now_ms : ℤ) : ℚ) / 1000 ≠ 0
    then (((digitsVal ds : ℤ) - now_ms : ℤ) : ℚ) / 1000
    else rl.base_delay * 2 ^ attempt) =
      (((digitsVal ds : ℤ) - now_ms : ℤ) : ℚ) / 1000
  exact if_pos (ne_of_gt hpos)

/-- Witness for C1 (amended): the message `X-RateLimit-Reset": "5000"`
at current time 0 yields the pre-jitter delay 5000/1000 = 5 seconds. -/
theorem claim1_hint_precedence_witness :
    ((['5', '0', '0', '0'] : List Char) ≠ [] ∧
      (∀ c ∈ (['5', '0', '0', '0'] : List Char), c.isDigit = true) ∧
      (0 : ℤ) < (digitsVal ['5', '0', '0', '0'] : ℤ)) ∧
    pre_jitter_delay ⟨3, 1, 60, 0, 0⟩ 0
      (String.mk ("X-RateLimit-Reset\": \"".toList ++ ['5', '0', '0', '0'] ++
        '"' :: [])) 0 =
      (((digitsVal ['5', '0', '0', '0'] : ℤ) - 0 : ℤ) : ℚ) / 1000 :=
  ⟨⟨by decide, by decide, by decide⟩,
    claim1_hint_precedence ⟨3, 1, 60, 0, 0⟩ 0 ['5', '0', '0', '0'] [] 0
      (by decide) (by decide) (by decide)⟩

/-- C4: failure classification is a pure function of the rendered error
text: the verdict is `true` iff the lowercased message contains one of
the four keywords as a substring.  (Independence from the attempt
number and from executor state is structural: `is_rate_limit_error`
takes only the message, and the attempt loop consults nothing else.) -/
theorem claim4_pure_classification (msg : String) :
    is_rate_limit_error msg = true ↔
      ("rate limit".toList <:+: msg.toLower.toList ∨
       "429".toList <:+: msg.toLower.toList ∨
       "too many requests".toList <:+: msg.toLower.toList ∨
       "quota exceeded".toList <:+: msg.toLower.toList) := by
  simp [is_rate_limit_error, rate_limit_keywords]

/-- C5, as stated, is false: the 0.1-second floor is applied after the
`max_delay` cap, so with `base_delay = max_delay = 1/20 < 0.1` (which
satisfies the claim's hypothesis `0 < base_delay ≤ max_delay`), jitter
draw 0 and no server hint, the computed delay is `1/10 > max_delay`. -/
theorem claim5_counterexample :
    (0 : ℚ) < 1 / 20 ∧ (1 / 20 : ℚ) ≤ 1 / 20 ∧
    (-1 : ℚ) ≤ 0 ∧ (0 : ℚ) ≤ 1 ∧
    extract_retry_after 0 "" = none ∧
    calculate_delay ⟨3, 1 / 20, 1 / 20, 0, 0⟩ 0 "" 0 0 = 1 / 10 ∧
    ¬ calculate_delay ⟨3, 1 / 20, 1 / 20, 0, 0⟩ 0 "" 0 0 ≤ (1 / 20 : ℚ) := by
  with_unfolding_all decide

/-- C5 (amended): under the additional hypothesis `0.1 ≤ max_delay`
(satisfied by the default policy, `max_delay = 60`), for every attempt,
every jitter draw `u ∈ [-1, 1]` and every policy with
`0 < base_delay ≤ max_delay`, the no-hint backoff delay satisfies
`0.1 ≤ delay ≤ max_delay`, and the pre-jitter value is
`base_delay * 2^attempt`. -/
theorem claim5_delay_bounds (rl : RateLimiter) (attempt : ℕ) (msg : String)
    (now_ms : ℤ) (u : ℚ)
    (hbase : 0 < rl.base_delay) (hbm : rl.base_delay ≤ rl.max_delay)
    (hfloor : 1 / 10 ≤ rl.max_delay) (hu1 : -1 ≤ u) (hu2 : u ≤ 1)
    (hhint : extract_retry_after now_ms msg = none) :
    pre_jitter_delay rl attempt msg now_ms = rl.base_delay * 2 ^ attempt ∧
    1 / 10 ≤ calculate_delay rl attempt msg now_ms u ∧
    calculate_delay rl attempt msg now_ms u ≤ rl.max_delay := by
  refine ⟨?_, ?_, ?_⟩
  · unfold pre_jitter_delay
    rw [hhint]
  · unfold calculate_delay
    exact le_max_right _ _
  · unfold calculate_delay
    exact max_le (min_le_right _ _) hfloor

/-- Witness for C5 (amended): the default policy
(`base_delay = 1`, `max_delay = 60`), attempt 2, jitter draw 1/2,
empty message. -/
theorem claim5_delay_bounds_witness :
    ((0 : ℚ) < 1 ∧ (1 : ℚ) ≤ 60 ∧ (1 / 10 : ℚ) ≤ 60 ∧
      (-1 : ℚ) ≤ 1 / 2 ∧ (1 / 2 : ℚ) ≤ 1 ∧
      extract_retry_after 0 "" = none) ∧
    (pre_jitter_delay ⟨3, 1, 60, 0, 0⟩ 2 "" 0 = 1 * 2 ^ 2 ∧
     1 / 10 ≤ calculate_delay ⟨3, 1, 60, 0, 0⟩ 2 "" 0 (1 / 2) ∧
     calculate_delay ⟨3, 1, 60, 0, 0⟩ 2 "" 0 (1 / 2) ≤ 60) :=
  ⟨⟨by norm_num, by norm_num, by norm_num, by norm_num, by norm_num, by decide⟩,
    claim5_delay_bounds ⟨3, 1, 60, 0, 0⟩ 2 "" 0 (1 / 2) (by norm_num)
      (by norm_num) (by norm_num) (by norm_num) (by norm_num) (by decide)⟩

/-- C3: an operation whose first invocation raises an error not
classified as a rate-limit condition is invoked exactly once, and that
error object is re-raised, regardless of the remaining retry budget. -/
theorem claim3_fast_fail {α ε : Type} (rl : RateLimiter) (clock : ℚ)
    (env : Env α ε) (e : ε)
    (hmr : 0 ≤ rl.max_retries)
    (hb : env.behavior 0 = Outcome.err e)
    (hcl : is_rate_limit_error (env.msg e) = false) :
    (call_with_retry rl clock env).calls = 1 ∧
    (call_with_retry rl clock env).res = RunResult.raised e := by
  unfold call_with_retry
  obtain ⟨m, hm⟩ : ∃ m, (rl.max_retries + 1).toNat = m + 1 :=
    ⟨rl.max_retries.toNat, by omega⟩
  rw [hm]
  constructor <;> simp [callLoop, hb, hcl]

/-- Witness for C3: `max_retries = 3`, first invocation raises an error
rendered as `Invalid API key`: one invocation, that error re-raised. -/
theorem claim3_fast_fail_witness :
    ((0 : ℤ) ≤ (3 : ℤ) ∧
      (fun i => Outcome.err (ε := ℕ) (α := ℕ) i) 0 = Outcome.err 0 ∧
      is_rate_limit_error ((fun _ => "Invalid API key") (0 : ℕ)) = false) ∧
    ((call_with_retry (α := ℕ) (ε := ℕ) ⟨3, 1, 60, 0, 0⟩ 0
        ⟨fun i => Outcome.err i, fun _ => "Invalid API key", fun _ => 0,
         fun _ => 0, fun _ => 0⟩).calls = 1 ∧
     (call_with_retry (α := ℕ) (ε := ℕ) ⟨3, 1, 60, 0, 0⟩ 0
        ⟨fun i => Outcome.err i, fun _ => "Invalid API key", fun _ => 0,
         fun _ => 0, fun _ => 0⟩).res = RunResult.raised 0) :=
  ⟨⟨by decide, rfl, by with_unfolding_all decide⟩,
    claim3_fast_fail ⟨3, 1, 60, 0, 0⟩ 0
      ⟨fun i => Outcome.err i, fun _ => "Invalid API key", fun _ => 0,
       fun _ => 0, fun _ => 0⟩ 0 (by decide) rfl (by with_unfolding_all decide)⟩

/-- If attempts `attempt .. attempt+j-1` raise rate-limit-classified
errors and attempt `attempt+j` succeeds within the remaining fuel, the
loop returns that success after exactly `j + 1` invocations. -/
theorem callLoop_success {α ε : Type} (env : Env α ε) (v : α) :
    ∀ (j : ℕ), ∀ (n attempt : ℕ) (rl : RateLimiter) (clock : ℚ) (last : Option ε),
      ((attempt : ℤ) + (n : ℤ) = rl.max_retries + 1) →
      j < n →
      (∀ i, attempt ≤ i → i < attempt + j →
        ∃ e, env.behavior i = Outcome.err e ∧
          is_rate_limit_error (env.msg e) = true) →
      env.behavior (attempt + j) = Outcome.ok v →
      (callLoop env n attempt rl clock last).calls = j + 1 ∧
      (callLoop env n attempt rl clock last).res = RunResult.success v := by
  intro j
  induction j with
  | zero =>
    intro n attempt rl clock last hinv hjn hfails hok
    obtain ⟨m, rfl⟩ : ∃ m, n = m + 1 := ⟨n - 1, by omega⟩
    rw [Nat.add_zero] at hok
    constructor <;> simp [callLoop, hok]
  | succ j ihj =>
    intro n attempt rl clock last hinv hjn hfails hok
    obtain ⟨m, rfl⟩ : ∃ m, n = m + 1 := ⟨n - 1, by omega⟩
    obtain ⟨e, hbe, hrl⟩ := hfails attempt (le_refl attempt) (by omega)
    have hc1 : ¬ (is_rate_limit_error (env.msg e) = false) := by simp [hrl]
    have hat : ¬ ((attempt : ℤ) = (paceStep env attempt rl clock).rl.max_retries) := by
      rw [paceStep_max_retries]
      push_cast at hinv
      omega
    have hinv2 : ((attempt + 1 : ℕ) : ℤ) + (m : ℤ) =
        (paceStep env attempt rl clock).rl.max_retries + 1 := by
      rw [paceStep_max_retries]
      push_cast at hinv ⊢
      omega
    have hfails2 : ∀ i, attempt + 1 ≤ i → i < (attempt + 1) + j →
        ∃ e, env.behavior i = Outcome.err e ∧
          is_rate_limit_error (env.msg e) = true := by
      intro i h1 h2
      exact hfails i (by omega) (by omega)
    have hok2 : env.behavior ((attempt + 1) + j) = Outcome.ok v := by
      have hidx : (attempt + 1) + j = attempt + (j + 1) := by omega
      rw [hidx]
      exact hok
    obtain ⟨ih1, ih2⟩ := ihj m (attempt + 1) (paceStep env attempt rl clock).rl
      ((paceStep env attempt rl clock).clock +
        calculate_delay (paceStep env attempt rl clock).rl attempt
          (env.msg e) (env.nowMs attempt) (env.u attempt))
      (some e) hinv2 (by omega) hfails2 hok2
    constructor
    · simp [callLoop, hbe, if_neg hc1, if_neg hat, ih1]
    · simp [callLoop, hbe, if_neg hc1, if_neg hat, ih2]

/-- C6: if the operation succeeds on attempt `i ≤ max_retries` after
rate-limit-classified failures on attempts `0 .. i-1`, `call_with_retry`
returns that success, having invoked the operation exactly `i + 1`
times. -/
theorem claim6_success_short_circuit {α ε : Type} (rl : RateLimiter) (clock : ℚ)
    (env : Env α ε) (i : ℕ) (v : α)
    (hi : (i : ℤ) ≤ rl.max_retries)
    (hfails : ∀ j, j < i →
      ∃ e, env.behavior j = Outcome.err e ∧
        is_rate_limit_error (env.msg e) = true)
    (hok : env.behavior i = Outcome.ok v) :
    (call_with_retry rl clock env).calls = i + 1 ∧
    (call_with_retry rl clock env).res = RunResult.success v := by
  unfold call_with_retry
  exact callLoop_success env v i ((rl.max_retries + 1).toNat) 0 rl clock none
    (by push_cast; omega) (by omega)
    (fun j _ h2 => hfails j (by omega)) (by simpa using hok)

/-- Witness for C6: success value 7 on attempt 2 after two
rate-limit-classified failures, with `max_retries = 3`. -/
theorem claim6_success_short_circuit_witness :
    ((2 : ℤ) ≤ (3 : ℤ) ∧
      (∀ j, j < 2 →
        ∃ e, (fun i => if i < 2 then Outcome.err (α := ℕ) (ε := ℕ) i
              else Outcome.ok 7) j = Outcome.err e ∧
          is_rate_limit_error ((fun _ => "429") e) = true) ∧
      (fun i => if i < 2 then Outcome.err (α := ℕ) (ε := ℕ) i
        else Outcome.ok 7) 2 = Outcome.ok 7) ∧
    ((call_with_retry (α := ℕ) (ε := ℕ) ⟨3, 1, 60, 0, 0⟩ 0
        ⟨fun i => if i < 2 then Outcome.err i else Outcome.ok 7, fun _ => "429",
         fun _ => 0, fun _ => 0, fun _ => 0⟩).calls = 2 + 1 ∧
     (call_with_retry (α := ℕ) (ε := ℕ) ⟨3, 1, 60, 0, 0⟩ 0
        ⟨fun i => if i < 2 then Outcome.err i else Outcome.ok 7, fun _ => "429",
         fun _ => 0, fun _ => 0, fun _ => 0⟩).res = RunResult.success 7) :=
  ⟨⟨by decide,
    fun j hj => ⟨j, by simp [hj],
      show is_rate_limit_error "429" = true by with_unfolding_all decide⟩,
    by decide⟩,
    claim6_success_short_circuit ⟨3, 1, 60, 0, 0⟩ 0
      ⟨fun i => if i < 2 then Outcome.err i else Outcome.ok 7, fun _ => "429",
       fun _ => 0, fun _ => 0, fun _ => 0⟩ 2 7 (by decide)
      (fun j hj => ⟨j, by simp [hj],
        show is_rate_limit_error "429" = true by with_unfolding_all decide⟩)
      (by decide)⟩

/-- Whenever the loop re-raises an error, it is the error produced by
the last invocation made. -/
theorem callLoop_raised_from {α ε : Type} (env : Env α ε) :
    ∀ (n : ℕ), ∀ (attempt : ℕ) (rl : RateLimiter) (clock : ℚ) (last : Option ε)
      (e : ε),
      (callLoop env n attempt rl clock last).res = RunResult.raised e →
      ∃ j, (callLoop env n attempt rl clock last).calls = j + 1 ∧
        env.behavior (attempt + j) = Outcome.err e := by
  intro n
  induction n with
  | zero =>
    intro attempt rl clock last e h
    exact absurd h (by simp [callLoop])
  | succ m ih =>
    intro attempt rl clock last e h
    cases hbe : env.behavior attempt with
    | ok v => simp [callLoop, hbe] at h
    | err e1 =>
      by_cases hc1 : is_rate_limit_error (env.msg e1) = false
      · have hres1 : (callLoop env (m + 1) attempt rl clock last).res =
            RunResult.raised e1 := by
          simp [callLoop, hbe, hc1]
        have hcalls1 : (callLoop env (m + 1) attempt rl clock last).calls = 1 := by
          simp [callLoop, hbe, hc1]
        rw [hres1] at h
        injection h with he
        refine ⟨0, ?_, ?_⟩
        · rw [hcalls1]
        · rw [Nat.add_zero, ← he]
          exact hbe
      · by_cases hat : (attempt : ℤ) = (paceStep env attempt rl clock).rl.max_retries
        · have hres1 : (callLoop env (m + 1) attempt rl clock last).res =
              RunResult.raised e1 := by
            simp [callLoop, hbe, if_neg hc1, if_pos hat]
          have hcalls1 : (callLoop env (m + 1) attempt rl clock last).calls = 1 := by
            simp [callLoop, hbe, if_neg hc1, if_pos hat]
          rw [hres1] at h
          injection h with he
          refine ⟨0, ?_, ?_⟩
          · rw [hcalls1]
          · rw [Nat.add_zero, ← he]
            exact hbe
        · have hres : (callLoop env (m + 1) attempt rl clock last).res =
              (callLoop env m (attempt + 1) (paceStep env attempt rl clock).rl
                ((paceStep env attempt rl clock).clock +
                  calculate_delay (paceStep env attempt rl clock).rl attempt
                    (env.msg e1) (env.nowMs attempt) (env.u attempt))
                (some e1)).res := by
            simp [callLoop, hbe, if_neg hc1, if_neg hat]
          have hcalls : (callLoop env (m + 1) attempt rl clock last).calls =
              (callLoop env m (attempt + 1) (paceStep env attempt rl clock).rl
                ((paceStep env attempt rl clock).clock +
                  calculate_delay (paceStep env attempt rl clock).rl attempt
                    (env.msg e1) (env.nowMs attempt) (env.u attempt))
                (some e1)).calls + 1 := by
            simp [callLoop, hbe, if_neg hc1, if_neg hat]
          rw [hres] at h
          obtain ⟨j, hj1, hj2⟩ := ih (attempt + 1) _ _ (some e1) e h
          refine ⟨j + 1, ?_, ?_⟩
          · rw [hcalls, hj1]
          · have hidx : attempt + (j + 1) = (attempt + 1) + j := by omega
            rw [hidx]
            exact hj2

/-- C7: when `call_with_retry` terminates with an error — fatal
classification or budget exhaustion — the raised error is exactly the
error object produced by the last invocation of the operation. -/
theorem claim7_raises_original_error {α ε : Type} (rl : RateLimiter) (clock : ℚ)
    (env : Env α ε) (e : ε)
    (h : (call_with_retry rl clock env).res = RunResult.raised e) :
    0 < (call_with_retry rl clock env).calls ∧
    env.behavior ((call_with_retry rl clock env).calls - 1) = Outcome.err e := by
  unfold call_with_retry at h ⊢
  obtain ⟨j, hj1, hj2⟩ := callLoop_raised_from env _ 0 rl clock none e h
  rw [hj1]
  exact ⟨by omega, by simpa using hj2⟩

/-- Witness for C7: two rate-limit failures under `max_retries = 1`
end with the error of the second (last) invocation re-raised. -/
theorem claim7_raises_original_error_witness :
    ((call_with_retry (α := ℕ) (ε := ℕ) ⟨1, 1, 60, 0, 0⟩ 0
        ⟨fun i => Outcome.err (10 + i), fun _ => "quota exceeded", fun _ => 0,
         fun _ => 0, fun _ => 0⟩).res = RunResult.raised 11) ∧
    0 < (call_with_retry (α := ℕ) (ε := ℕ) ⟨1, 1, 60, 0, 0⟩ 0
        ⟨fun i => Outcome.err (10 + i), fun _ => "quota exceeded", fun _ => 0,
         fun _ => 0, fun _ => 0⟩).calls ∧
    (fun i => Outcome.err (α := ℕ) (ε := ℕ) (10 + i))
        ((call_with_retry (α := ℕ) (ε := ℕ) ⟨1, 1, 60, 0, 0⟩ 0
          ⟨fun i => Outcome.err (10 + i), fun _ => "quota exceeded", fun _ => 0,
           fun _ => 0, fun _ => 0⟩).calls - 1) = Outcome.err 11 :=
  ⟨by with_unfolding_all decide,
    claim7_raises_original_error ⟨1, 1, 60, 0, 0⟩ 0
      ⟨fun i => Outcome.err (10 + i), fun _ => "quota exceeded", fun _ => 0,
       fun _ => 0, fun _ => 0⟩ 11 (by with_unfolding_all decide)⟩

/-- Witness for C2: `max_retries = 2` and an operation that always
raises a rate-limit-classified error: exactly 3 invocations, last error
re-raised. -/
theorem claim2_attempt_bound_witness :
    (((⟨2, 1, 60, 0, 0⟩ : RateLimiter)).max_retries = ((2 : ℕ) : ℤ) ∧
      (∀ i, i ≤ 2 →
        ∃ e, Outcome.err (α := ℕ) (ε := ℕ) i = Outcome.err e ∧
          is_rate_limit_error "rate limit hit" = true)) ∧
    ((call_with_retry (α := ℕ) (ε := ℕ) ⟨2, 1, 60, 0, 0⟩ 0
        ⟨fun i => Outcome.err i, fun _ => "rate limit hit", fun _ => 0, fun _ => 0,
         fun _ => 0⟩).calls = 2 + 1 ∧
     ∃ e, Outcome.err (α := ℕ) (ε := ℕ) 2 = Outcome.err e ∧
       (call_with_retry (α := ℕ) (ε := ℕ) ⟨2, 1, 60, 0, 0⟩ 0
          ⟨fun i => Outcome.err i, fun _ => "rate limit hit", fun _ => 0, fun _ => 0,
           fun _ => 0⟩).res = RunResult.raised e) :=
  ⟨⟨by decide,
    fun i _ => ⟨i, rfl,
      show is_rate_limit_error "rate limit hit" = true by with_unfolding_all decide⟩⟩,
    claim2_attempt_bound 2 ⟨2, 1, 60, 0, 0⟩ 0
      ⟨fun i => Outcome.err i, fun _ => "rate limit hit", fun _ => 0, fun _ => 0,
       fun _ => 0⟩ (by decide)
      (fun i _ => ⟨i, rfl,
        show is_rate_limit_error "rate limit hit" = true by
          with_unfolding_all decide⟩)⟩

/-- Each loop iteration increments `request_count` by one and appends
one trace entry, so totals equal the number of invocations. -/
theorem callLoop_count {α ε : Type} (env : Env α ε) :
    ∀ (n : ℕ), ∀ (attempt : ℕ) (rl : RateLimiter) (clock : ℚ) (last : Option ε),
      (callLoop env n attempt rl clock last).rl.request_count =
        rl.request_count + (callLoop env n attempt rl clock last).calls ∧
      (callLoop env n attempt rl clock last).log.length =
        (callLoop env n attempt rl clock last).calls := by
  intro n
  induction n with
  | zero => intro attempt rl clock last; simp [callLoop]
  | succ m ih =>
    intro attempt rl clock last
    cases hbe : env.behavior attempt with
    | ok v => constructor <;> simp [callLoop, hbe, paceStep_request_count]
    | err e =>
      by_cases hc1 : is_rate_limit_error (env.msg e) = false
      · constructor <;> simp [callLoop, hbe, hc1, paceStep_request_count]
      · by_cases hat : (attempt : ℤ) = (paceStep env attempt rl clock).rl.max_retries
        · constructor <;>
            simp [callLoop, hbe, if_neg hc1, if_pos hat, paceStep_request_count]
        · obtain ⟨ih1, ih2⟩ := ih (attempt + 1) (paceStep env attempt rl clock).rl
            ((paceStep env attempt rl clock).clock +
              calculate_delay (paceStep env attempt rl clock).rl attempt
                (env.msg e) (env.nowMs attempt) (env.u attempt)) (some e)
          constructor
          · simp [callLoop, hbe, if_neg hc1, if_neg hat, ih1,
              paceStep_request_count]
            omega
          · simp [callLoop, hbe, if_neg hc1, if_neg hat, ih2]

/-- C9: a `call_with_retry` execution that makes `n` attempts increases
`request_count` by exactly `n` (one per attempt, successful or not),
records one trace entry per attempt, and never decreases the counter. -/
theorem claim9_request_count {α ε : Type} (rl : RateLimiter) (clock : ℚ)
    (env : Env α ε) :
    (call_with_retry rl clock env).rl.request_count =
      rl.request_count + (call_with_retry rl clock env).calls ∧
    (call_with_retry rl clock env).log.length =
      (call_with_retry rl clock env).calls ∧
    rl.request_count ≤ (call_with_retry rl clock env).rl.request_count := by
  unfold call_with_retry
  obtain ⟨h1, h2⟩ := callLoop_count env ((rl.max_retries + 1).toNat) 0 rl clock none
  exact ⟨h1, h2, by omega⟩

/-- With fuel aligned to the loop bound, the loop always returns or
raises from inside an iteration; the fuel-exhausted fallback is never
the produced result. -/
theorem callLoop_no_fallback {α ε : Type} (env : Env α ε) :
    ∀ (n : ℕ), ∀ (attempt : ℕ) (rl : RateLimiter) (clock : ℚ) (last : Option ε),
      ((attempt : ℤ) + (n : ℤ) = rl.max_retries + 1) → 0 < n →
      ∀ o, (callLoop env n attempt rl clock last).res ≠ RunResult.fallback o := by
  intro n
  induction n with
  | zero => intro _ _ _ _ _ h0; exact absurd h0 (lt_irrefl 0)
  | succ m ih =>
    intro attempt rl clock last hinv _ o
    cases hbe : env.behavior attempt with
    | ok v => simp [callLoop, hbe]
    | err e =>
      by_cases hc1 : is_rate_limit_error (env.msg e) = false
      · simp [callLoop, hbe, hc1]
      · by_cases hat : (attempt : ℤ) = (paceStep env attempt rl clock).rl.max_retries
        · simp [callLoop, hbe, if_neg hc1, if_pos hat]
        · have hm : 0 < m := by
            rw [paceStep_max_retries] at hat
            push_cast at hinv
            omega
          have hinv2 : ((attempt + 1 : ℕ) : ℤ) + (m : ℤ) =
              (paceStep env attempt rl clock).rl.max_retries + 1 := by
            rw [paceStep_max_retries]
            push_cast at hinv ⊢
            omega
          have hno := ih (attempt + 1) (paceStep env attempt rl clock).rl
            ((paceStep env attempt rl clock).clock +
              calculate_delay (paceStep env attempt rl clock).rl attempt
                (env.msg e) (env.nowMs attempt) (env.u attempt)) (some e)
            hinv2 hm o
          simp only [callLoop, hbe, if_neg hc1, if_neg hat]
          simpa using hno

/-- C10: with `max_retries ≥ 0` every execution returns or raises from
inside the attempt loop, so the trailing `raise last_exception`
fallback is unreachable (in particular `None` is never raised); with
`max_retries < 0` the loop body never runs and the call hits that
fallback with `last_exception = None`, without invoking the operation. -/
theorem claim10_fallback_unreachable {α ε : Type} (rl : RateLimiter) (clock : ℚ)
    (env : Env α ε) :
    (0 ≤ rl.max_retries →
      ∀ o, (call_with_retry rl clock env).res ≠ RunResult.fallback o) ∧
    (rl.max_retries < 0 →
      (call_with_retry rl clock env).res = RunResult.fallback none ∧
      (call_with_retry rl clock env).calls = 0) := by
  constructor
  · intro hmr o
    unfold call_with_retry
    exact callLoop_no_fallback env ((rl.max_retries + 1).toNat) 0 rl clock none
      (by push_cast; omega) (by omega) o
  · intro hmr
    unfold call_with_retry
    rw [show (rl.max_retries + 1).toNat = 0 from by omega]
    constructor <;> simp [callLoop]

/-- Witness for C10: a concrete run with `max_retries = 1` never hits
the fallback, and one with `max_retries = -1` raises the `None`
fallback after zero invocations. -/
theorem claim10_fallback_unreachable_witness :
    ((call_with_retry (α := ℕ) (ε := ℕ) ⟨1, 1, 60, 0, 0⟩ 0
        ⟨fun i => Outcome.err i, fun _ => "429", fun _ => 0, fun _ => 0,
         fun _ => 0⟩).res ≠ RunResult.fallback none) ∧
    ((call_with_retry (α := ℕ) (ε := ℕ) ⟨-1, 1, 60, 0, 0⟩ 0
        ⟨fun i => Outcome.err i, fun _ => "429", fun _ => 0, fun _ => 0,
         fun _ => 0⟩).res = RunResult.fallback none ∧
     (call_with_retry (α := ℕ) (ε := ℕ) ⟨-1, 1, 60, 0, 0⟩ 0
        ⟨fun i => Outcome.err i, fun _ => "429", fun _ => 0, fun _ => 0,
         fun _ => 0⟩).calls = 0) :=
  ⟨(claim10_fallback_unreachable ⟨1, 1, 60, 0, 0⟩ 0
      ⟨fun i => Outcome.err i, fun _ => "429", fun _ => 0, fun _ => 0,
       fun _ => 0⟩).1 (by decide) none,
   (claim10_fallback_unreachable ⟨-1, 1, 60, 0, 0⟩ 0
      ⟨fun i => Outcome.err i, fun _ => "429", fun _ => 0, fun _ => 0,
       fun _ => 0⟩).2 (by decide)⟩

/-- Every trace entry satisfies the pacing-sleep equations of the
source: the blocking time is exactly `min_interval - elapsed` when
`elapsed < min_interval` (else zero), and the recorded start is the
pacing read plus the block. -/
theorem callLoop_sleep_eqs {α ε : Type} (env : Env α ε) :
    ∀ (n : ℕ), ∀ (attempt : ℕ) (rl : RateLimiter) (clock : ℚ) (last : Option ε),
      ∀ info ∈ (callLoop env n attempt rl clock last).log,
        info.sleepPacing =
          (if info.elapsed < 1 / 5 then 1 / 5 - info.elapsed else 0) ∧
        info.start = info.readTime + info.sleepPacing := by
  intro n
  induction n with
  | zero => intro attempt rl clock last info hmem; simp [callLoop] at hmem
  | succ m ih =>
    intro attempt rl clock last info hmem
    have hp : ∀ q : AttemptInfo, q = (paceStep env attempt rl clock).info →
        q.sleepPacing = (if q.elapsed < 1 / 5 then 1 / 5 - q.elapsed else 0) ∧
        q.start = q.readTime + q.sleepPacing := by
      rintro q rfl
      exact ⟨paceStep_sleep_form env attempt rl clock,
        paceStep_start_form env attempt rl clock⟩
    cases hbe : env.behavior attempt with
    | ok v =>
      simp [callLoop, hbe] at hmem
      exact hp info hmem
    | err e =>
      by_cases hc1 : is_rate_limit_error (env.msg e) = false
      · simp [callLoop, hbe, hc1] at hmem
        exact hp info hmem
      · by_cases hat : (attempt : ℤ) = (paceStep env attempt rl clock).rl.max_retries
        · simp [callLoop, hbe, if_neg hc1, if_pos hat] at hmem
          exact hp info hmem
        · simp only [callLoop, hbe, if_neg hc1, if_neg hat] at hmem
          simp only [List.mem_cons] at hmem
          rcases hmem with hmem | hmem
          · exact hp info hmem
          · exact ih (attempt + 1) (paceStep env attempt rl clock).rl
              ((paceStep env attempt rl clock).clock +
                calculate_delay (paceStep env attempt rl clock).rl attempt
                  (env.msg e) (env.nowMs attempt) (env.u attempt)) (some e)
              info hmem

/-- Starting from the executor's recorded `last_request_time`, the
recorded attempt starts are pairwise at least `min_interval = 0.2`
seconds apart. -/
theorem callLoop_spacing_chain {α ε : Type} (env : Env α ε) :
    ∀ (n : ℕ), ∀ (attempt : ℕ) (rl : RateLimiter) (clock : ℚ) (last : Option ε),
      List.Chain (fun a b => a + 1 / 5 ≤ b) rl.last_request_time
        ((callLoop env n attempt rl clock last).log.map AttemptInfo.start) := by
  intro n
  induction n with
  | zero =>
    intro attempt rl clock last
    simp [callLoop]
  | succ m ih =>
    intro attempt rl clock last
    have hspace := paceStep_spacing env attempt rl clock
    cases hbe : env.behavior attempt with
    | ok v =>
      simp [callLoop, hbe, List.chain_cons]
      simpa using hspace
    | err e =>
      by_cases hc1 : is_rate_limit_error (env.msg e) = false
      · simp [callLoop, hbe, hc1, List.chain_cons]
        simpa using hspace
      · by_cases hat : (attempt : ℤ) = (paceStep env attempt rl clock).rl.max_retries
        · simp [callLoop, hbe, if_neg hc1, if_pos hat, List.chain_cons]
          simpa using hspace
        · have ihr := ih (attempt + 1) (paceStep env attempt rl clock).rl
            ((paceStep env attempt rl clock).clock +
              calculate_delay (paceStep env attempt rl clock).rl attempt
                (env.msg e) (env.nowMs attempt) (env.u attempt)) (some e)
          rw [paceStep_last_eq_start] at ihr
          simp only [callLoop, hbe, if_neg hc1, if_neg hat, List.map_cons,
            List.chain_cons]
          exact ⟨hspace, ihr⟩

/-- C8: before every attempt the executor blocks for exactly
`min_interval - elapsed` when `elapsed < min_interval = 0.2` (and not
at all otherwise), and consequently consecutive attempt starts —
including the first attempt measured against the executor's prior
`last_request_time` — are never less than 0.2 seconds apart. -/
theorem claim8_pacing {α ε : Type} (rl : RateLimiter) (clock : ℚ)
    (env : Env α ε) :
    (∀ info ∈ (call_with_retry rl clock env).log,
      info.sleepPacing =
        (if info.elapsed < 1 / 5 then 1 / 5 - info.elapsed else 0) ∧
      info.start = info.readTime + info.sleepPacing) ∧
    List.Chain (fun a b => a + 1 / 5 ≤ b) rl.last_request_time
      ((call_with_retry rl clock env).log.map AttemptInfo.start) := by
  constructor
  · intro info hmem
    exact callLoop_sleep_eqs env ((rl.max_retries + 1).toNat) 0 rl clock none
      info hmem
  · exact callLoop_spacing_chain env ((rl.max_retries + 1).toNat) 0 rl clock none

end RateLimiterModel
